import Mathlib

/-!
Shallow embedding of the phoenix RPC adapter engine
(src/koala/src/rpc_adapter/engine.rs) and its receive-buffer pool
(src/koala/src/rpc_adapter/pool.rs), with theorems checking the
natural-language specification against the code.

Machine integers: `credit` is an AtomicUsize in the source; we model it as a
Nat together with explicit wrap-around modulo 2^64 exactly where the source
performs fetch_sub / fetch_add.
-/

namespace Phoenix

/-- Word size of usize on the target platform (64-bit). -/
def USIZE : Nat := 2 ^ 64

/-- Wrapping subtraction on usize, as performed by AtomicUsize.fetch_sub. -/
def wsub (a b : Nat) : Nat := (a + (USIZE - b % USIZE)) % USIZE

/-- Wrapping addition on usize, as performed by AtomicUsize.fetch_add. -/
def wadd (a b : Nat) : Nat := (a + b) % USIZE

/-! ## Receive-buffer pool (pool.rs) -/

/-- pool.rs lines 16-22: a reference into one memory segment of a backing
storage region.  `storage` stands for the identity (handle) of the backing
SharedRegion, whose concrete allocator lives outside this file; distinct
regions have distinct handles. -/
structure RecvBuffer where
  offset : Nat
  len : Nat
  align : Nat
  storage : Nat
deriving DecidableEq, Repr

/-- pool.rs lines 24-32: handle encoding `high * 2^16 + low` where `high` is
the storage handle and `low = offset / len` is the buffer index.  The two
assertions `high < 2^16` and `low < 2^16` of the source become hypotheses of
the theorems below. -/
def RecvBuffer.as_handle (b : RecvBuffer) : Nat :=
  b.storage * 2 ^ 16 + b.offset / b.len

/-- pool.rs lines 52-60: a slab of `num_buffers` buffers of `buffer_size`
bytes carved out of one storage region; the bitmap records which buffer
indices are in use (true = used). -/
structure BufferSlab where
  num_buffers : Nat
  buffer_size : Nat
  buffer_align : Nat
  storage : Nat
  bitmap : List Bool
deriving DecidableEq, Repr

/-- pool.rs lines 65-90 (BufferSlab::new): the effective buffer size is
raised to at least the alignment; the bitmap starts all-zero.  The source
also asserts that the alignment is a power of two and a multiple of 4096;
the pool only ever calls `new` with 8 MiB for both, which satisfies them. -/
def BufferSlab.new (num_buffers buffer_size buffer_align storage : Nat) : BufferSlab :=
  let bsz := max buffer_size buffer_align
  ⟨num_buffers, bsz, buffer_align, storage, List.replicate num_buffers false⟩

/-- Index of the first zero bit, as returned by bitmap.iter_zeros().next(). -/
def firstZero : List Bool → Option Nat
  | [] => none
  | b :: rest => if b then (firstZero rest).map (· + 1) else some 0

/-- pool.rs lines 97-112 (BufferSlab::obtain): take the first free bit,
mark position `offset / len` used, hand out the corresponding buffer. -/
def BufferSlab.obtain (s : BufferSlab) : Option (RecvBuffer × BufferSlab) :=
  match firstZero s.bitmap with
  | some unused =>
    let offset := unused * s.buffer_size
    let len := s.buffer_size
    some (⟨offset, len, s.buffer_align, s.storage⟩,
          { s with bitmap := s.bitmap.set (offset / len) true })
  | none => none

/-- pool.rs lines 114-118 (BufferSlab::release): clear bit offset / len. -/
def BufferSlab.release (s : BufferSlab) (recv_buf : RecvBuffer) : BufferSlab :=
  { s with bitmap := s.bitmap.set (recv_buf.offset / recv_buf.len) false }

/-- pool.rs lines 122-124: the pool is a vector of slabs.  `next_region`
models the allocation of fresh SharedRegion handles (each newly created
region carries a handle distinct from all earlier ones). -/
structure BufferPool where
  slabs : List BufferSlab
  next_region : Nat
deriving DecidableEq, Repr

/-- pool.rs lines 138-142: the loop of BufferPool::obtain over the current
slabs, returning the buffer of the first slab that has a free bit. -/
def poolObtainAux : List BufferSlab → Option (RecvBuffer × List BufferSlab)
  | [] => none
  | s :: rest =>
    match s.obtain with
    | some (b, s1) => some (b, s1 :: rest)
    | none => (poolObtainAux rest).map (fun p => (p.1, s :: p.2))

/-- pool.rs lines 137-147 (BufferPool::obtain): scan the slabs; if every
slab is full, replenish one new slab of 128 buffers of 8 MiB (aligned to
8 MiB) and retry.  The source retries by recursion; the retry always finds
a free bit in the fresh slab, so the second match arm below is dead code
(proved unreachable by poolObtainAux_append_fresh in the theorem section)
and its fallback value is never produced. -/
def BufferPool.obtain (p : BufferPool) : RecvBuffer × BufferPool :=
  match poolObtainAux p.slabs with
  | some (b, slabs1) => (b, ⟨slabs1, p.next_region⟩)
  | none =>
    let fresh := BufferSlab.new 128 (8 * 1024 * 1024) (8 * 1024 * 1024) p.next_region
    match poolObtainAux (p.slabs ++ [fresh]) with
    | some (b, slabs1) => (b, ⟨slabs1, p.next_region + 1⟩)
    | none => (⟨0, 0, 0, 0⟩, ⟨p.slabs ++ [fresh], p.next_region + 1⟩)

/-- Iterated BufferPool::obtain, collecting the returned buffers. -/
def obtainN : Nat → BufferPool → List RecvBuffer × BufferPool
  | 0, p => ([], p)
  | n + 1, p =>
    let r := p.obtain
    let rest := obtainN n r.2
    (r.1 :: rest.1, rest.2)

/-- The pool as constructed by BufferPool::new (pool.rs lines 127-131). -/
def emptyPool : BufferPool := ⟨[], 0⟩

/-! ## Per-connection state (engine.rs together with spec section 3) -/

/-- An entry of the outstanding-request FIFO (spec section 3; the struct
itself lives in rpc_adapter/state.rs, which is not under src/, but its two
fields are fixed by the pushes and pops in engine.rs lines 176-179 and
230-237). -/
structure ReqContext where
  call_id : Nat
  sg_len : Nat
deriving DecidableEq, Repr

/-- A scatter-gather segment: backend pointer and byte length. -/
structure ShmBuf where
  ptr : Nat
  len : Nat
deriving DecidableEq, Repr

/-- Modelled from the spec: ConnectionContext (spec section 3; defined in
rpc_adapter/state.rs, not under src/): cmid handle, atomic credit counter
(usize), outstanding-request FIFO, and the in-progress receiving SGL. -/
structure ConnectionContext where
  cmid : Nat
  credit : Nat
  outstanding_req : List ReqContext
  receiving_sgl : List ShmBuf
deriving DecidableEq, Repr

/-- Modelled from the spec: insert_cmid registers a fresh connection with the
given credit (engine.rs lines 356 and 501 pass 128) and empty queues. -/
def insert_cmid (handle credit : Nat) : ConnectionContext :=
  ⟨handle, credit, [], []⟩

/-- The connection state right after Connect (engine.rs line 501). -/
def initConn : ConnectionContext := insert_cmid 1 128

/-- engine.rs line 164: the TX path is blocked when credit is at or below
the low-water mark 5. -/
def creditGate (c : ConnectionContext) : Bool := 5 < c.credit

/-- engine.rs lines 174-180: for a request, fetch_sub the SGL length from
the credit (wrapping, as AtomicUsize does) and push a ReqContext. -/
def applyRequestAccounting (c : ConnectionContext) (call_id sg_len : Nat) : ConnectionContext :=
  { c with credit := wsub c.credit sg_len,
           outstanding_req := c.outstanding_req ++ [⟨call_id, sg_len⟩] }

/-- A request post as the TX drain performs it: only enabled past the credit
gate (engine.rs lines 164-180). -/
def postRequestStep (c : ConnectionContext) (call_id sg_len : Nat) : Option ConnectionContext :=
  if creditGate c then some (applyRequestAccounting c call_id sg_len) else none

/-- engine.rs lines 229-237: on a response, pop the front ReqContext
(pop_front().unwrap() panics on an empty queue, modelled as none), assert
that its call_id matches (assert_eq! panics on mismatch, modelled as none),
and fetch_add its sg_len back onto the credit. -/
def deliverResponseStep (c : ConnectionContext) (call_id : Nat) : Option ConnectionContext :=
  match c.outstanding_req with
  | [] => none
  | req :: rest =>
    if call_id = req.call_id then
      some { c with credit := wadd c.credit req.sg_len, outstanding_req := rest }
    else none

/-- The message types dispatched on (interface crate; spec section 4.3). -/
inductive RpcMsgType where
  | Request
  | Response
deriving DecidableEq, Repr

/-- Modelled from the spec: MessageMeta (spec section 4.3; the struct lives
in the interface crate, not under src/). -/
structure MessageMeta where
  conn_id : Nat
  call_id : Nat
  func_id : Nat
  msg_type : RpcMsgType
deriving DecidableEq, Repr

/-- engine.rs lines 241-268: the only func_id the codegen dispatch knows is
0 (HelloRequest / HelloReply); any other is a panic. -/
def knownFuncId (f : Nat) : Bool := f == 0

/-- engine.rs lines 218-273 (unmarshal_and_deliver_up), taking the message
metadata already decoded from the SGL (MessageTemplateErased::unmarshal
lives in marshal.rs outside src/).  Overwrites meta.conn_id with the cmid
handle, replenishes credit on a response by popping the FIFO, then
dispatches on func_id; the returned meta is the message pushed to the RX
queue.  All panics are modelled as none. -/
def unmarshal_and_deliver_up (meta : MessageMeta) (conn : ConnectionContext) :
    Option (ConnectionContext × MessageMeta) :=
  let meta1 := { meta with conn_id := conn.cmid }
  match meta1.msg_type with
  | RpcMsgType.Request =>
    if knownFuncId meta1.func_id then some (conn, meta1) else none
  | RpcMsgType.Response =>
    match deliverResponseStep conn meta1.call_id with
    | some conn1 =>
      if knownFuncId meta1.func_id then some (conn1, meta1) else none
    | none => none

/-! ## Connection-level traces for the credit invariant -/

/-- The two datapath events that touch credit and the outstanding FIFO of
one connection: a request post (TX drain) and a response delivery (recv
completion with WITH_IMM whose message is a Response). -/
inductive ConnEvent where
  | postRequest (call_id sg_len : Nat)
  | deliverResponse (call_id : Nat)
deriving DecidableEq, Repr

def connStep (c : ConnectionContext) : ConnEvent → Option ConnectionContext
  | ConnEvent.postRequest call_id sg_len => postRequestStep c call_id sg_len
  | ConnEvent.deliverResponse call_id => deliverResponseStep c call_id

def applyEvents (c : ConnectionContext) : List ConnEvent → Option ConnectionContext
  | [] => some c
  | e :: evs =>
    match connStep c e with
    | some c1 => applyEvents c1 evs
    | none => none

/-- Total sg_len over the outstanding-request FIFO. -/
def outSum (c : ConnectionContext) : Nat :=
  (c.outstanding_req.map ReqContext.sg_len).sum

/-- The side condition under which the strict credit identity holds: along
the run every state reached keeps the outstanding sg_len total at or below
the initial credit 128 (traces that die at a disabled event are bounded up
to that point). -/
def boundedRun (c : ConnectionContext) : List ConnEvent → Bool
  | [] => true
  | e :: evs =>
    match connStep c e with
    | some c1 => decide (outSum c1 ≤ 128) && boundedRun c1 evs
    | none => true

/-! ## Memory regions and the send loop of the TX drain -/

/-- Modelled from the spec: memory-region attributes the adapter reads
(spec section 3); the MemoryRegion type itself lives in the ulib/uverbs
crate outside src/.  addr is the backend virtual address, len the length,
app_vaddr the application-side address attached by NewMappedAddrs. -/
structure MemReg where
  addr : Nat
  len : Nat
  app_vaddr : Option Nat
deriving DecidableEq, Repr

/-- Modelled from the spec: set_app_vaddr attaches the application-side
virtual address to the MR (spec sections 3 and 4.1.1; the method lives
outside src/). -/
def MemReg.set_app_vaddr (mr : MemReg) (v : Nat) : MemReg :=
  { mr with app_vaddr := some v }

/-- Modelled from the spec: query_mr, the address-to-MR lookup used for
outgoing sends (spec section 2; implemented in rpc_adapter/state.rs, not
under src/): find a registered region whose range contains the segment. -/
def query_mr (mrs : List MemReg) (sge : ShmBuf) : Option MemReg :=
  mrs.find? (fun mr =>
    decide (mr.addr ≤ sge.ptr) && decide (sge.ptr + sge.len ≤ mr.addr + mr.len))

/-- One RDMA send as posted by the TX drain: the surrounding cmid, the MR it
resolves to, the byte range off..off+len inside that MR, the wr context
value, the SIGNALED flag, and the immediate value if posted with imm. -/
structure PostedSend where
  cmid : Nat
  mr_addr : Nat
  range_lo : Nat
  range_hi : Nat
  context : Nat
  signaled : Bool
  imm : Option Nat
deriving DecidableEq, Repr

/-- engine.rs lines 182-203: one post_send per segment in order; the last
segment (i + 1 = length) is post_send_with_imm with immediate value 0; every
post passes SendFlags::SIGNALED and context 0.  A query_mr miss is a
DatapathError (fail fast). -/
def postSends (mrs : List MemReg) (cmid : Nat) : List ShmBuf → Except Unit (List PostedSend)
  | [] => Except.ok []
  | [sge] =>
    match query_mr mrs sge with
    | none => Except.error ()
    | some mr =>
      Except.ok [⟨cmid, mr.addr, sge.ptr - mr.addr, sge.ptr - mr.addr + sge.len, 0, true, some 0⟩]
  | sge :: r1 :: rs =>
    match query_mr mrs sge with
    | none => Except.error ()
    | some mr =>
      match postSends mrs cmid (r1 :: rs) with
      | Except.ok ps =>
        Except.ok
          (⟨cmid, mr.addr, sge.ptr - mr.addr, sge.ptr - mr.addr + sge.len, 0, true, none⟩ :: ps)
      | Except.error e => Except.error e

/-! ## The TX drain (check_input_queue) -/

/-- engine.rs lines 72-78: the internal status of each probe. -/
inductive Status where
  | Progress (n : Nat)
  | Disconnected
deriving DecidableEq, Repr

/-- One end of an mpsc channel as try_recv sees it: either live with a queue
of pending messages, or disconnected. -/
inductive ChanState (α : Type) where
  | live (msgs : List α)
  | disconnected
deriving DecidableEq, Repr

/-- Modelled from the spec: the fields of a TX RpcMessage that
check_input_queue reads through the RpcMessage trait (conn_id, call_id,
is_request, and the SGL produced by marshal(); the trait lives in
mrpc/marshal.rs outside src/, spec section 4.3). -/
structure RpcMsg where
  conn_id : Nat
  call_id : Nat
  is_request : Bool
  sgl : List ShmBuf
deriving DecidableEq, Repr

/-- Association-table lookup (the resource tables of state.rs): the value
stored under the first matching key. -/
def lookupTable {α : Type} : List (Nat × α) → Nat → Option α
  | [], _ => none
  | p :: rest, k => if p.1 = k then some p.2 else lookupTable rest k

/-- Replace the value stored under key k. -/
def updateTable {α : Type} : List (Nat × α) → Nat → α → List (Nat × α)
  | [], _, _ => []
  | p :: rest, k, v => (if p.1 = k then (k, v) else p) :: updateTable rest k v

/-- The datapath state check_input_queue operates on: the engine-local FIFO,
the connection table, the MR registry for query_mr, and the TX channel. -/
structure DpState where
  local_buffer : List RpcMsg
  cmid_table : List (Nat × ConnectionContext)
  mr_table : List MemReg
  tx : ChanState RpcMsg
deriving DecidableEq, Repr

structure CiqResult where
  state : DpState
  posts : List PostedSend
  status : Status
deriving DecidableEq, Repr

/-- engine.rs lines 208-215: the non-blocking read of at most one message
from the TX channel into the back of the local FIFO. -/
def tryRecvTx (st : DpState) : CiqResult :=
  match st.tx with
  | ChanState.live [] => ⟨st, [], Status.Progress 0⟩
  | ChanState.live (m :: ms) =>
    ⟨{ st with local_buffer := st.local_buffer ++ [m], tx := ChanState.live ms },
     [], Status.Progress 0⟩
  | ChanState.disconnected => ⟨st, [], Status.Disconnected⟩

/-- engine.rs lines 154-216 (check_input_queue).  Pop the front of the local
FIFO; a cmid-table miss is a DatapathError; if the connection's credit is at
or below 5, push the message back at the front and fall through to the
channel read; otherwise marshal, account the request, post one send per
segment and return Progress 1.  Every path through the loop body breaks or
returns, so at most one message is processed per call.  (In the source a
query_mr failure aborts after the accounting and any earlier posts have
already reached the NIC; the Except model only reports the error.) -/
def check_input_queue (st : DpState) : Except Unit CiqResult :=
  match st.local_buffer with
  | [] => Except.ok (tryRecvTx st)
  | msg :: rest =>
    match lookupTable st.cmid_table msg.conn_id with
    | none => Except.error ()
    | some conn =>
      if conn.credit ≤ 5 then
        Except.ok (tryRecvTx st)
      else
        let conn1 :=
          if msg.is_request then applyRequestAccounting conn msg.call_id msg.sgl.length
          else conn
        match postSends st.mr_table msg.conn_id msg.sgl with
        | Except.ok ps =>
          Except.ok ⟨{ st with local_buffer := rest,
                               cmid_table := updateTable st.cmid_table msg.conn_id conn1 },
                     ps, Status.Progress 1⟩
        | Except.error e => Except.error e

/-! ## The resume scheduler (engine.rs lines 88-131) -/

/-- Modelled from the spec: the status an engine reports to the host
scheduler (crate::engine, not under src/; spec section 4.1 lists exactly
Continue and Disconnected). -/
inductive EngineStatus where
  | Continue
  | Disconnected
deriving DecidableEq, Repr

def DP_LIMIT : Nat := 2 ^ 17

def CMD_MAX_INTERVAL_MS : Nat := 1000

/-- The contribution of one probe result to the work counter: the
`if let Progress(n)` in resume adds n and silently drops Disconnected. -/
def statusWork : Status → Nat
  | Status.Progress n => n
  | Status.Disconnected => 0

/-- The scheduling fields of RpcAdapterEngine (engine.rs lines 40-42);
last_cmd_ts is an Instant, modelled in milliseconds. -/
structure SchedState where
  dp_spin_cnt : Nat
  backoff : Nat
  last_cmd_ts : Nat
deriving DecidableEq, Repr

/-- The environment of one resume call: what the three probes returned and
the current clock (milliseconds) when elapsed() is read. -/
structure ResumeInput where
  tx_probe : Status
  cq_probe : Status
  cmd_probe : Status
  now : Nat
deriving DecidableEq, Repr

structure ResumeOutcome where
  state : SchedState
  sweep : Bool
  status : EngineStatus
deriving DecidableEq, Repr

/-- engine.rs lines 108-110: when any probe reported work, double backoff
saturating at DP_LIMIT; otherwise leave it. -/
def resumeBackoff1 (st : SchedState) (work : Nat) : Nat :=
  if 0 < work then min DP_LIMIT (st.backoff * 2) else st.backoff

/-- engine.rs lines 88-131 (resume), parameterised by the probe outcomes.
If any probe reported work, double backoff (saturating at DP_LIMIT);
increment dp_spin_cnt and return Continue while it is below backoff;
otherwise reset it, and either run the incoming-connection sweep (when more
than CMD_MAX_INTERVAL_MS elapsed since the last one, also halving backoff
with floor 1) or double backoff again.  Note that the Status.Disconnected
returned by a probe is discarded by the `if let Progress` pattern: resume
returns Continue on every path. -/
def resume (st : SchedState) (inp : ResumeInput) : ResumeOutcome :=
  let work := statusWork inp.tx_probe + statusWork inp.cq_probe + statusWork inp.cmd_probe
  let backoff1 := resumeBackoff1 st work
  let spin := st.dp_spin_cnt + 1
  if spin < backoff1 then
    ⟨⟨spin, backoff1, st.last_cmd_ts⟩, false, EngineStatus.Continue⟩
  else if CMD_MAX_INTERVAL_MS < inp.now - st.last_cmd_ts then
    ⟨⟨0, max 1 (backoff1 / 2), inp.now⟩, true, EngineStatus.Continue⟩
  else
    ⟨⟨0, min DP_LIMIT (backoff1 * 2), st.last_cmd_ts⟩, false, EngineStatus.Continue⟩

/-- All states visited by a schedule of resume calls, initial included. -/
def schedStates (st : SchedState) : List ResumeInput → List SchedState
  | [] => [st]
  | i :: is => st :: schedStates (resume st i).state is

/-- The clock values at which the incoming-connection sweep fired. -/
def sweepTimes (st : SchedState) : List ResumeInput → List Nat
  | [] => []
  | i :: is =>
    let o := resume st i
    if o.sweep then i.now :: sweepTimes o.state is
    else sweepTimes o.state is

/-! ## Command handling: NewMappedAddrs (engine.rs lines 528-537) -/

/-- The two MR registries the handlers touch: mr_table, filled by AllocShm
through insert_mr (engine.rs line 476), and recv_mr_table, filled with the
receive MRs of each connection (engine.rs lines 357-363 and 502-508). -/
structure ResourceTables where
  mr_table : List (Nat × MemReg)
  recv_mr_table : List (Nat × MemReg)
deriving DecidableEq, Repr

/-- Modelled from the spec: insert_mr stores an AllocShm MR in the mr_table
registry (engine.rs line 476 is the call; the method lives in state.rs
outside src/). -/
def insert_mr (res : ResourceTables) (h : Nat) (mr : MemReg) : ResourceTables :=
  { res with mr_table := res.mr_table ++ [(h, mr)] }

/-- engine.rs lines 528-537: the loop of the NewMappedAddrs handler over the
handle-address pairs.  Each handle is looked up in recv_mr_table (a miss
aborts the command with an error completion), its app_vaddr attribute is
set, and the triple (backend addr, app_vaddr, len) is pushed in input
order. -/
def newMappedAddrsLoop (tbl : List (Nat × MemReg)) :
    List (Nat × Nat) → Except Unit (List (Nat × Nat × Nat) × List (Nat × MemReg))
  | [] => Except.ok ([], tbl)
  | (h, va) :: rest =>
    match lookupTable tbl h with
    | none => Except.error ()
    | some mr =>
      match newMappedAddrsLoop (updateTable tbl h (mr.set_app_vaddr va)) rest with
      | Except.ok (ret, tbl2) => Except.ok ((mr.addr, va, mr.len) :: ret, tbl2)
      | Except.error e => Except.error e

/-- The NewMappedAddrs arm of process_cmd: it consults recv_mr_table (and
only that table; engine.rs line 532). -/
def processNewMappedAddrs (res : ResourceTables) (pairs : List (Nat × Nat)) :
    Except Unit (List (Nat × Nat × Nat) × ResourceTables) :=
  match newMappedAddrsLoop res.recv_mr_table pairs with
  | Except.ok (ret, tbl) => Except.ok (ret, { res with recv_mr_table := tbl })
  | Except.error e => Except.error e

/-- The last app_vaddr given for a handle in a pair list (later pairs with
the same handle overwrite earlier ones, as the sequential loop does). -/
def lastVal (pairs : List (Nat × Nat)) (h : Nat) : Option Nat :=
  match pairs with
  | [] => none
  | (h1, v) :: rest =>
    match lastVal rest h with
    | some v1 => some v1
    | none => if h1 = h then some v else none

/-- The property stated by the spec for send framing: one post per segment
in order, every post SIGNALED with wr context 0 and the byte range of its
segment inside the MR resolved for that segment, and the immediate value 0
on exactly the last post. -/
def sendFramingSpec (mrs : List MemReg) (cmid : Nat) (sgl : List ShmBuf)
    (ps : List PostedSend) : Prop :=
  ps.length = sgl.length ∧
  (∀ i p, ps.get? i = some p →
     p.signaled = true ∧ p.cmid = cmid ∧ p.context = 0 ∧
     p.imm = (if i + 1 = sgl.length then some 0 else none)) ∧
  (∀ i sge p, sgl.get? i = some sge → ps.get? i = some p →
     ∃ mr, query_mr mrs sge = some mr ∧ p.mr_addr = mr.addr ∧
       p.range_lo = sge.ptr - mr.addr ∧ p.range_hi = sge.ptr - mr.addr + sge.len)

/-- Pending length of a channel (for counting dequeues). -/
def txQueueLen : ChanState RpcMsg → Nat
  | ChanState.live ms => ms.length
  | ChanState.disconnected => 0

/-- Test fixture: a connection with credit 6 on cmid handle 1. -/
def bpConn : ConnectionContext := ⟨1, 6, [], []⟩

/-- Test fixture: a request of three segments (sg_len 3) for call 11. -/
def bpMsg1 : RpcMsg := ⟨1, 11, true, [⟨4096, 1⟩, ⟨4097, 1⟩, ⟨4098, 1⟩]⟩

/-- Test fixture: a second three-segment request, call 12. -/
def bpMsg2 : RpcMsg := ⟨1, 12, true, [⟨4099, 1⟩, ⟨4100, 1⟩, ⟨4101, 1⟩]⟩

/-- Test fixture: both requests queued towards the credit-6 connection, one
registered MR covering their segments. -/
def bpState : DpState :=
  ⟨[bpMsg1, bpMsg2], [(1, bpConn)], [⟨4096, 100, none⟩], ChanState.live []⟩

/-- The outcome of draining bpState once: the first request is sent (three
posts, the last with immediate 0), credit drops from 6 to 3, a ReqContext
for call 11 with sg_len 3 is outstanding, and the second request stays
queued. -/
def bpResult1 : CiqResult :=
  ⟨⟨[bpMsg2], [(1, ⟨1, 3, [⟨11, 3⟩], []⟩)], [⟨4096, 100, none⟩], ChanState.live []⟩,
   [⟨1, 4096, 0, 1, 0, true, none⟩, ⟨1, 4096, 1, 2, 0, true, none⟩,
    ⟨1, 4096, 2, 3, 0, true, some 0⟩],
   Status.Progress 1⟩

/-! # Theorems -/

/-- Wrapping usize subtraction agrees with Nat subtraction when there is no
underflow. -/
theorem wsub_eq_sub (a b : Nat) (hba : b ≤ a) (ha : a < USIZE) : wsub a b = a - b := by
  have hb : b % USIZE = b := Nat.mod_eq_of_lt (lt_of_le_of_lt hba ha)
  unfold wsub
  rw [hb]
  have h1 : a + (USIZE - b) = USIZE + (a - b) := by
    have : b ≤ USIZE := le_of_lt (lt_of_le_of_lt hba ha)
    omega
  rw [h1, Nat.add_mod_left]
  exact Nat.mod_eq_of_lt (by omega)

/-- Wrapping usize addition agrees with Nat addition when there is no
overflow. -/
theorem wadd_eq_add (a b : Nat) (h : a + b < USIZE) : wadd a b = a + b :=
  Nat.mod_eq_of_lt h

/-- A freshly created slab always yields a buffer. -/
theorem slab_new_obtain_isSome (storage : Nat) :
    ((BufferSlab.new 128 (8 * 1024 * 1024) (8 * 1024 * 1024) storage).obtain).isSome = true := by
  rfl

/-- After pushing a fresh 128-buffer slab, the obtain loop cannot fail: the
retry in BufferPool::obtain always returns a buffer, and the fallback arm of
the model is dead code. -/
theorem poolObtainAux_append_fresh (l : List BufferSlab) (storage : Nat) :
    (poolObtainAux
      (l ++ [BufferSlab.new 128 (8 * 1024 * 1024) (8 * 1024 * 1024) storage])).isSome = true := by
  induction l with
  | nil =>
    simp only [List.nil_append, poolObtainAux]
    have h := slab_new_obtain_isSome storage
    cases hob : (BufferSlab.new 128 (8 * 1024 * 1024) (8 * 1024 * 1024) storage).obtain with
    | none => rw [hob] at h; simp at h
    | some p => simp [hob]
  | cons s rest ih =>
    simp only [List.cons_append, poolObtainAux]
    cases hob : s.obtain with
    | none =>
      cases hrest : poolObtainAux
          (rest ++ [BufferSlab.new 128 (8 * 1024 * 1024) (8 * 1024 * 1024) storage]) with
      | none => rw [hrest] at ih; simp at ih
      | some p => simp [hrest]
    | some p => simp

set_option maxRecDepth 200000 in
/-- Claim C6: BufferPool::obtain always returns a buffer (the retry after
replenishing a fresh slab cannot fail, so growth is on demand and the dead
fallback arm is never taken); called 129 times on an empty pool it returns
129 pairwise distinct buffers, the slab count grows from 0 to 1 on the
first call and stays 1 through the 128th, reaching 2 on the 129th, and
every slab holds 128 buffers of 8 MiB. -/
theorem pool_growth_on_demand :
    (∀ (l : List BufferSlab) (storage : Nat),
        (poolObtainAux
          (l ++ [BufferSlab.new 128 (8 * 1024 * 1024) (8 * 1024 * 1024) storage])).isSome
          = true) ∧
    emptyPool.slabs.length = 0 ∧
    (obtainN 1 emptyPool).2.slabs.length = 1 ∧
    (obtainN 128 emptyPool).2.slabs.length = 1 ∧
    (obtainN 129 emptyPool).2.slabs.length = 2 ∧
    (obtainN 129 emptyPool).1.length = 129 ∧
    ((obtainN 129 emptyPool).1.map (fun b => (b.storage, b.offset))).Nodup ∧
    (∀ s, s ∈ (obtainN 129 emptyPool).2.slabs →
        s.num_buffers = 128 ∧ s.buffer_size = 8 * 1024 * 1024) :=
  ⟨poolObtainAux_append_fresh, by decide, by decide, by decide, by decide, by decide,
   by decide, by decide⟩

/-- Claim C8: the handle encoding slab-handle times 2 to the 16 plus buffer
index is injective below the 16-bit sub-range limits that the source
asserts. -/
theorem recv_buffer_handle_injective (b1 b2 : RecvBuffer)
    (h1 : b1.storage < 2 ^ 16) (h2 : b1.offset / b1.len < 2 ^ 16)
    (h3 : b2.storage < 2 ^ 16) (h4 : b2.offset / b2.len < 2 ^ 16)
    (heq : b1.as_handle = b2.as_handle) :
    b1.storage = b2.storage ∧ b1.offset / b1.len = b2.offset / b2.len := by
  unfold RecvBuffer.as_handle at heq
  generalize hx1 : b1.offset / b1.len = d1 at heq h2 ⊢
  generalize hx2 : b2.offset / b2.len = d2 at heq h4 ⊢
  constructor <;> omega

/-- Witness for C8 at two concrete buffers with equal handles. -/
theorem recv_buffer_handle_injective_witness :
    (⟨8388608, 8388608, 8388608, 3⟩ : RecvBuffer).as_handle =
      (⟨1, 1, 4096, 3⟩ : RecvBuffer).as_handle ∧
    ((⟨8388608, 8388608, 8388608, 3⟩ : RecvBuffer).storage =
        (⟨1, 1, 4096, 3⟩ : RecvBuffer).storage ∧
      (⟨8388608, 8388608, 8388608, 3⟩ : RecvBuffer).offset /
          (⟨8388608, 8388608, 8388608, 3⟩ : RecvBuffer).len =
        (⟨1, 1, 4096, 3⟩ : RecvBuffer).offset / (⟨1, 1, 4096, 3⟩ : RecvBuffer).len) :=
  ⟨by decide,
   recv_buffer_handle_injective _ _ (by decide) (by decide) (by decide) (by decide)
     (by decide)⟩

/-- A successful deliverResponseStep pops exactly the front entry of the
FIFO, whose call_id matches, and adds back exactly that entry's sg_len. -/
theorem deliverResponseStep_some (conn : ConnectionContext) (cid : Nat)
    (c1 : ConnectionContext) (h : deliverResponseStep conn cid = some c1) :
    ∃ req rest, conn.outstanding_req = req :: rest ∧ req.call_id = cid ∧
      c1 = { conn with credit := wadd conn.credit req.sg_len, outstanding_req := rest } := by
  unfold deliverResponseStep at h
  cases hq : conn.outstanding_req with
  | nil => rw [hq] at h; exact absurd h (by simp)
  | cons req rest =>
    simp only [hq] at h
    split at h
    next hc => exact ⟨req, rest, rfl, hc.symm, (Option.some.inj h).symm⟩
    next hc => exact absurd h (by simp)

/-- A mismatching front call_id makes deliverResponseStep panic (none). -/
theorem deliverResponseStep_mismatch (conn : ConnectionContext) (cid : Nat)
    (req : ReqContext) (rest : List ReqContext)
    (hq : conn.outstanding_req = req :: rest) (hne : req.call_id ≠ cid) :
    deliverResponseStep conn cid = none := by
  have hc : ¬(cid = req.call_id) := fun hcc => hne hcc.symm
  simp [deliverResponseStep, hq, hc]

/-- Claim C2: for every response delivery, a successful
unmarshal_and_deliver_up pops exactly the front entry of outstanding_req,
the popped entry's call_id equals the response's call_id, and credit is
replenished exactly once by exactly that entry's sg_len; a call_id mismatch
at the front is fatal (modelled none). -/
theorem fifo_response_matching :
    (∀ (meta : MessageMeta) (conn : ConnectionContext)
        (res : ConnectionContext × MessageMeta),
        meta.msg_type = RpcMsgType.Response →
        unmarshal_and_deliver_up meta conn = some res →
        ∃ req rest, conn.outstanding_req = req :: rest ∧
          req.call_id = meta.call_id ∧
          res.1.outstanding_req = rest ∧
          res.1.credit = wadd conn.credit req.sg_len ∧
          res.1.cmid = conn.cmid ∧ res.1.receiving_sgl = conn.receiving_sgl) ∧
    (∀ (meta : MessageMeta) (conn : ConnectionContext) (req : ReqContext)
        (rest : List ReqContext),
        meta.msg_type = RpcMsgType.Response →
        conn.outstanding_req = req :: rest →
        req.call_id ≠ meta.call_id →
        unmarshal_and_deliver_up meta conn = none) := by
  constructor
  · intro meta conn res hmt hok
    unfold unmarshal_and_deliver_up at hok
    simp only [hmt] at hok
    cases hd : deliverResponseStep conn meta.call_id with
    | none => rw [hd] at hok; exact absurd hok (by simp)
    | some conn1 =>
      rw [hd] at hok
      dsimp only at hok
      obtain ⟨req, rest, hq, hcid, hc1⟩ := deliverResponseStep_some conn meta.call_id conn1 hd
      by_cases hf : knownFuncId meta.func_id
      · rw [if_pos hf] at hok
        obtain rfl := Option.some.inj hok
        subst hc1
        exact ⟨req, rest, hq, hcid, rfl, rfl, rfl, rfl⟩
      · rw [if_neg hf] at hok
        exact absurd hok (by simp)
  · intro meta conn req rest hmt hq hne
    unfold unmarshal_and_deliver_up
    simp only [hmt]
    rw [deliverResponseStep_mismatch conn meta.call_id req rest hq hne]

/-- Witness for C2: a response with call_id 7 against a connection whose
FIFO front is call_id 7 with sg_len 2 and credit 126, and a mismatching
response with call_id 9. -/
theorem fifo_response_matching_witness :
    (∃ req rest,
        (⟨1, 126, [⟨7, 2⟩], []⟩ : ConnectionContext).outstanding_req = req :: rest ∧
        req.call_id = (⟨5, 7, 0, RpcMsgType.Response⟩ : MessageMeta).call_id ∧
        ((⟨1, 128, [], []⟩ : ConnectionContext),
          (⟨1, 7, 0, RpcMsgType.Response⟩ : MessageMeta)).1.outstanding_req = rest ∧
        ((⟨1, 128, [], []⟩ : ConnectionContext),
          (⟨1, 7, 0, RpcMsgType.Response⟩ : MessageMeta)).1.credit =
          wadd (⟨1, 126, [⟨7, 2⟩], []⟩ : ConnectionContext).credit req.sg_len ∧
        ((⟨1, 128, [], []⟩ : ConnectionContext),
          (⟨1, 7, 0, RpcMsgType.Response⟩ : MessageMeta)).1.cmid =
          (⟨1, 126, [⟨7, 2⟩], []⟩ : ConnectionContext).cmid ∧
        ((⟨1, 128, [], []⟩ : ConnectionContext),
          (⟨1, 7, 0, RpcMsgType.Response⟩ : MessageMeta)).1.receiving_sgl =
          (⟨1, 126, [⟨7, 2⟩], []⟩ : ConnectionContext).receiving_sgl) ∧
    unmarshal_and_deliver_up ⟨5, 9, 0, RpcMsgType.Response⟩ ⟨1, 126, [⟨7, 2⟩], []⟩ = none :=
  ⟨fifo_response_matching.1 ⟨5, 7, 0, RpcMsgType.Response⟩ ⟨1, 126, [⟨7, 2⟩], []⟩
      (⟨1, 128, [], []⟩, ⟨1, 7, 0, RpcMsgType.Response⟩) (by decide) (by decide),
   fifo_response_matching.2 ⟨5, 9, 0, RpcMsgType.Response⟩ ⟨1, 126, [⟨7, 2⟩], []⟩
      ⟨7, 2⟩ [] (by decide) (by decide) (by decide)⟩

/-- Claim C3 (code bug): when the TX datapath channel is disconnected the
probe does report Status.Disconnected, but resume discards it through the
`if let Progress` pattern and returns Continue on every path; the engine
never reports EngineStatus.Disconnected to the host. -/
theorem resume_swallows_disconnect :
    (∀ st : DpState, st.local_buffer = [] → st.tx = ChanState.disconnected →
        check_input_queue st = Except.ok ⟨st, [], Status.Disconnected⟩) ∧
    (∀ (st : SchedState) (inp : ResumeInput),
        (resume st inp).status = EngineStatus.Continue) := by
  constructor
  · intro st h1 h2
    unfold check_input_queue
    rw [h1]
    unfold tryRecvTx
    rw [h2]
  · intro st inp
    unfold resume
    dsimp only
    repeat' split
    all_goals rfl

/-- Witness for C3 at a concrete disconnected state. -/
theorem resume_swallows_disconnect_witness :
    check_input_queue ⟨[], [], [], ChanState.disconnected⟩ =
      Except.ok ⟨⟨[], [], [], ChanState.disconnected⟩, [], Status.Disconnected⟩ ∧
    (resume ⟨0, 1, 0⟩ ⟨Status.Disconnected, Status.Progress 0, Status.Progress 0, 0⟩).status =
      EngineStatus.Continue :=
  ⟨resume_swallows_disconnect.1 ⟨[], [], [], ChanState.disconnected⟩ rfl rfl,
   resume_swallows_disconnect.2 ⟨0, 1, 0⟩
     ⟨Status.Disconnected, Status.Progress 0, Status.Progress 0, 0⟩⟩

/-- Claim C5: a successfully marshalled message of K segments is posted as
exactly K sends in segment order, all SIGNALED with context 0, each covering
its segment's byte range inside the MR resolved for it, and with the
immediate value 0 on exactly the last post. -/
theorem send_framing (mrs : List MemReg) (cmid : Nat) (sgl : List ShmBuf)
    (ps : List PostedSend) (hok : postSends mrs cmid sgl = Except.ok ps) :
    sendFramingSpec mrs cmid sgl ps := by
  induction sgl generalizing ps with
  | nil =>
    rw [postSends] at hok
    obtain rfl := Except.ok.inj hok
    refine ⟨rfl, ?_, ?_⟩
    · intro i p hp; simp at hp
    · intro i sge p hs hp; simp at hs
  | cons sge rest ih =>
    cases rest with
    | nil =>
      rw [postSends] at hok
      split at hok
      · exact absurd hok (by simp)
      · next mr hq =>
        obtain rfl := Except.ok.inj hok
        refine ⟨rfl, ?_, ?_⟩
        · intro i p hp
          cases i with
          | zero =>
            obtain rfl := Option.some.inj hp
            exact ⟨rfl, rfl, rfl, by simp⟩
          | succ j => simp at hp
        · intro i sge2 p hs hp
          cases i with
          | zero =>
            obtain rfl := Option.some.inj hs
            obtain rfl := Option.some.inj hp
            exact ⟨mr, hq, rfl, rfl, rfl⟩
          | succ j => simp at hs
    | cons r1 rs =>
      rw [postSends] at hok
      split at hok
      · exact absurd hok (by simp)
      · next mr hq =>
        split at hok
        · next ps1 hrec =>
          obtain rfl := Except.ok.inj hok
          obtain ⟨hlen, hall, hseg⟩ := ih ps1 hrec
          refine ⟨by simp [hlen], ?_, ?_⟩
          · intro i p hp
            cases i with
            | zero =>
              obtain rfl := Option.some.inj hp
              refine ⟨rfl, rfl, rfl, ?_⟩
              rw [if_neg (by simp)]
            | succ j =>
              have hp2 : ps1.get? j = some p := hp
              obtain ⟨hs1, hc1, hctx, himm⟩ := hall j p hp2
              refine ⟨hs1, hc1, hctx, ?_⟩
              rw [himm]
              by_cases hj : j + 1 = (r1 :: rs).length
              · rw [if_pos hj,
                    if_pos (by simp only [List.length_cons] at hj ⊢; omega)]
              · rw [if_neg hj,
                    if_neg (by simp only [List.length_cons] at hj ⊢; omega)]
          · intro i sge2 p hs hp
            cases i with
            | zero =>
              obtain rfl := Option.some.inj hs
              obtain rfl := Option.some.inj hp
              exact ⟨mr, hq, rfl, rfl, rfl⟩
            | succ j =>
              exact hseg j sge2 p hs hp
        · next e hrec => exact absurd hok (by simp)

/-- Witness for C5: a two-segment message inside one registered MR. -/
theorem send_framing_witness :
    sendFramingSpec [⟨4096, 100, none⟩] 1 [⟨4096, 10⟩, ⟨4106, 5⟩]
      [⟨1, 4096, 0, 10, 0, true, none⟩, ⟨1, 4096, 10, 15, 0, true, some 0⟩] :=
  send_framing [⟨4096, 100, none⟩] 1 [⟨4096, 10⟩, ⟨4106, 5⟩]
    [⟨1, 4096, 0, 10, 0, true, none⟩, ⟨1, 4096, 10, 15, 0, true, some 0⟩] (by rfl)

/-- Claim C4: with the destination connection's credit at most 5 the front
message is requeued at the head of the local FIFO and nothing is posted,
with the connection table untouched; with credit above 5 the message is
posted regardless of how its sg_len compares to the remaining credit; and
concretely, from credit 6 a request of sg_len 3 is accepted (credit drops
to 3) while the next sg_len 3 request is requeued head-of-line and not
sent. -/
theorem backpressure_low_water :
    (∀ (st : DpState) (msg : RpcMsg) (rest : List RpcMsg) (conn : ConnectionContext),
        st.local_buffer = msg :: rest →
        lookupTable st.cmid_table msg.conn_id = some conn →
        conn.credit ≤ 5 →
        check_input_queue st = Except.ok (tryRecvTx st) ∧
        (tryRecvTx st).posts = [] ∧
        (tryRecvTx st).state.cmid_table = st.cmid_table ∧
        (tryRecvTx st).state.local_buffer.head? = some msg) ∧
    (∀ (st : DpState) (msg : RpcMsg) (rest : List RpcMsg) (conn : ConnectionContext)
        (ps : List PostedSend),
        st.local_buffer = msg :: rest →
        lookupTable st.cmid_table msg.conn_id = some conn →
        5 < conn.credit →
        postSends st.mr_table msg.conn_id msg.sgl = Except.ok ps →
        check_input_queue st = Except.ok
          ⟨{ st with local_buffer := rest,
                     cmid_table := updateTable st.cmid_table msg.conn_id
                       (if msg.is_request then
                          applyRequestAccounting conn msg.call_id msg.sgl.length
                        else conn) },
            ps, Status.Progress 1⟩) ∧
    check_input_queue bpState = Except.ok bpResult1 ∧
    lookupTable bpResult1.state.cmid_table 1 = some ⟨1, 3, [⟨11, 3⟩], []⟩ ∧
    check_input_queue bpResult1.state =
      Except.ok ⟨bpResult1.state, [], Status.Progress 0⟩ := by
  refine ⟨?_, ?_, rfl, rfl, rfl⟩
  · intro st msg rest conn h1 h2 h3
    refine ⟨?_, ?_, ?_, ?_⟩
    · unfold check_input_queue
      rw [h1]
      dsimp only
      rw [h2]
      dsimp only
      rw [if_pos h3]
    · cases htx : st.tx with
      | live ms => cases ms <;> simp [tryRecvTx, htx]
      | disconnected => simp [tryRecvTx, htx]
    · cases htx : st.tx with
      | live ms => cases ms <;> simp [tryRecvTx, htx]
      | disconnected => simp [tryRecvTx, htx]
    · cases htx : st.tx with
      | live ms => cases ms <;> simp [tryRecvTx, htx, h1]
      | disconnected => simp [tryRecvTx, htx, h1]
  · intro st msg rest conn ps h1 h2 h3 h4
    unfold check_input_queue
    rw [h1]
    dsimp only
    rw [h2]
    dsimp only
    rw [if_neg (by omega)]
    rw [h4]

/-- Witness for C4: the two general parts applied to the concrete
backpressure fixtures (blocked at credit 3, sent at credit 6). -/
theorem backpressure_low_water_witness :
    (check_input_queue bpResult1.state = Except.ok (tryRecvTx bpResult1.state) ∧
     (tryRecvTx bpResult1.state).posts = [] ∧
     (tryRecvTx bpResult1.state).state.cmid_table = bpResult1.state.cmid_table ∧
     (tryRecvTx bpResult1.state).state.local_buffer.head? = some bpMsg2) ∧
    check_input_queue bpState = Except.ok
      ⟨{ bpState with local_buffer := [bpMsg2],
                      cmid_table := updateTable bpState.cmid_table bpMsg1.conn_id
                        (if bpMsg1.is_request then
                           applyRequestAccounting bpConn bpMsg1.call_id bpMsg1.sgl.length
                         else bpConn) },
        bpResult1.posts, Status.Progress 1⟩ :=
  ⟨backpressure_low_water.1 bpResult1.state bpMsg2 [] ⟨1, 3, [⟨11, 3⟩], []⟩
      rfl rfl (by decide),
   backpressure_low_water.2.1 bpState bpMsg1 [bpMsg2] bpConn bpResult1.posts
      rfl rfl (by decide) rfl⟩

/-- Claim C10: one call of check_input_queue sends the segments of at most
one message (and returns right after, leaving the channel untouched), and
dequeues at most one message from the TX channel; the local FIFO shrinks by
at most one and no message is created. -/
theorem tx_at_most_one_message (st : DpState) (r : CiqResult)
    (hok : check_input_queue st = Except.ok r) :
    (r.posts ≠ [] → ∃ msg rest, st.local_buffer = msg :: rest ∧
        r.state.local_buffer = rest ∧
        postSends st.mr_table msg.conn_id msg.sgl = Except.ok r.posts ∧
        r.state.tx = st.tx) ∧
    st.local_buffer.length ≤ r.state.local_buffer.length + 1 ∧
    r.state.local_buffer.length + txQueueLen r.state.tx ≤
      st.local_buffer.length + txQueueLen st.tx ∧
    txQueueLen st.tx ≤ txQueueLen r.state.tx + 1 := by
  have htry : ∀ s : DpState, (tryRecvTx s).posts = [] ∧
      s.local_buffer.length ≤ (tryRecvTx s).state.local_buffer.length + 1 ∧
      (tryRecvTx s).state.local_buffer.length + txQueueLen (tryRecvTx s).state.tx =
        s.local_buffer.length + txQueueLen s.tx ∧
      txQueueLen s.tx ≤ txQueueLen (tryRecvTx s).state.tx + 1 := by
    intro s
    cases htx : s.tx with
    | live ms => cases ms <;> simp [tryRecvTx, htx, txQueueLen] <;> omega
    | disconnected => simp [tryRecvTx, htx, txQueueLen]
  unfold check_input_queue at hok
  cases hlb : st.local_buffer with
  | nil =>
    rw [hlb] at hok
    obtain rfl := Except.ok.inj hok
    obtain ⟨hp, hl1, hl2, hl3⟩ := htry st
    rw [hlb] at hl1 hl2
    exact ⟨fun hne => absurd hp hne, hl1, hl2.le, hl3⟩
  | cons msg rest =>
    rw [hlb] at hok
    dsimp only at hok
    cases hconn : lookupTable st.cmid_table msg.conn_id with
    | none => rw [hconn] at hok; exact absurd hok (by simp)
    | some conn =>
      rw [hconn] at hok
      dsimp only at hok
      by_cases hcr : conn.credit ≤ 5
      · rw [if_pos hcr] at hok
        obtain rfl := Except.ok.inj hok
        obtain ⟨hp, hl1, hl2, hl3⟩ := htry st
        rw [hlb] at hl1 hl2
        exact ⟨fun hne => absurd hp hne, hl1, hl2.le, hl3⟩
      · rw [if_neg hcr] at hok
        cases hps : postSends st.mr_table msg.conn_id msg.sgl with
        | error e => rw [hps] at hok; exact absurd hok (by simp)
        | ok ps =>
          rw [hps] at hok
          dsimp only at hok
          obtain rfl := Except.ok.inj hok
          refine ⟨fun _ => ⟨msg, rest, rfl, rfl, hps, rfl⟩, ?_, ?_, ?_⟩
          · show (msg :: rest).length ≤ rest.length + 1
            simp
          · show rest.length + txQueueLen st.tx ≤ (msg :: rest).length + txQueueLen st.tx
            simp only [List.length_cons]
            omega
          · show txQueueLen st.tx ≤ txQueueLen st.tx + 1
            omega

/-- Witness for C10 at the concrete backpressure fixture. -/
theorem tx_at_most_one_message_witness :
    ((bpResult1.posts ≠ [] → ∃ msg rest, bpState.local_buffer = msg :: rest ∧
        bpResult1.state.local_buffer = rest ∧
        postSends bpState.mr_table msg.conn_id msg.sgl = Except.ok bpResult1.posts ∧
        bpResult1.state.tx = bpState.tx) ∧
      bpState.local_buffer.length ≤ bpResult1.state.local_buffer.length + 1 ∧
      bpResult1.state.local_buffer.length + txQueueLen bpResult1.state.tx ≤
        bpState.local_buffer.length + txQueueLen bpState.tx ∧
      txQueueLen bpState.tx ≤ txQueueLen bpResult1.state.tx + 1) :=
  tx_at_most_one_message bpState bpResult1 (by rfl)

/-- Case analysis of one resume call: what a sweep implies about the clock
and last_cmd_ts, that a non-sweep leaves last_cmd_ts alone, and that the
backoff stays inside 1..DP_LIMIT. -/
theorem resume_spec (st : SchedState) (inp : ResumeInput) :
    ((resume st inp).sweep = true →
       st.last_cmd_ts + CMD_MAX_INTERVAL_MS < inp.now ∧
       (resume st inp).state.last_cmd_ts = inp.now) ∧
    ((resume st inp).sweep = false →
       (resume st inp).state.last_cmd_ts = st.last_cmd_ts) ∧
    (1 ≤ st.backoff → st.backoff ≤ DP_LIMIT →
       1 ≤ (resume st inp).state.backoff ∧ (resume st inp).state.backoff ≤ DP_LIMIT) := by
  have hd : DP_LIMIT = 131072 := by norm_num [DP_LIMIT]
  have hbb : ∀ w, 1 ≤ st.backoff → st.backoff ≤ DP_LIMIT →
      1 ≤ resumeBackoff1 st w ∧ resumeBackoff1 st w ≤ DP_LIMIT := by
    intro w ha hb
    unfold resumeBackoff1
    split <;> constructor <;> omega
  unfold resume
  dsimp only
  set w := statusWork inp.tx_probe + statusWork inp.cq_probe + statusWork inp.cmd_probe with hw
  by_cases hc1 : st.dp_spin_cnt + 1 < resumeBackoff1 st w
  · rw [if_pos hc1]
    exact ⟨fun hsw => by simp at hsw, fun hnsw => rfl, fun h1 h2 => hbb w h1 h2⟩
  · rw [if_neg hc1]
    by_cases hc2 : CMD_MAX_INTERVAL_MS < inp.now - st.last_cmd_ts
    · rw [if_pos hc2]
      refine ⟨fun hsw => ⟨by omega, rfl⟩, fun hnsw => by simp at hnsw, fun h1 h2 => ?_⟩
      obtain ⟨x1, x2⟩ := hbb w h1 h2
      constructor
      · show 1 ≤ max 1 (resumeBackoff1 st w / 2)
        omega
      · show max 1 (resumeBackoff1 st w / 2) ≤ DP_LIMIT
        omega
    · rw [if_neg hc2]
      refine ⟨fun hsw => by simp at hsw, fun hnsw => rfl, fun h1 h2 => ?_⟩
      obtain ⟨x1, x2⟩ := hbb w h1 h2
      constructor
      · show 1 ≤ min DP_LIMIT (resumeBackoff1 st w * 2)
        omega
      · show min DP_LIMIT (resumeBackoff1 st w * 2) ≤ DP_LIMIT
        omega

/-- One resume call keeps the backoff counter inside 1..DP_LIMIT. -/
theorem resume_backoff_step (st : SchedState) (inp : ResumeInput)
    (h1 : 1 ≤ st.backoff) (h2 : st.backoff ≤ DP_LIMIT) :
    1 ≤ (resume st inp).state.backoff ∧ (resume st inp).state.backoff ≤ DP_LIMIT :=
  (resume_spec st inp).2.2 h1 h2

/-- A resume call that fires the incoming-connection sweep saw strictly
more than CMD_MAX_INTERVAL_MS elapse since last_cmd_ts, and stamps
last_cmd_ts with the current clock. -/
theorem resume_sweep_step (st : SchedState) (inp : ResumeInput)
    (hs : (resume st inp).sweep = true) :
    st.last_cmd_ts + CMD_MAX_INTERVAL_MS < inp.now ∧
    (resume st inp).state.last_cmd_ts = inp.now :=
  (resume_spec st inp).1 hs

/-- A resume call that does not fire the sweep leaves last_cmd_ts alone. -/
theorem resume_no_sweep_step (st : SchedState) (inp : ResumeInput)
    (hs : (resume st inp).sweep = false) :
    (resume st inp).state.last_cmd_ts = st.last_cmd_ts :=
  (resume_spec st inp).2.1 hs

/-- Backoff stays within bounds along every schedule of resume calls. -/
theorem schedStates_bounds (inps : List ResumeInput) : ∀ (st : SchedState),
    1 ≤ st.backoff → st.backoff ≤ DP_LIMIT →
    ∀ s ∈ schedStates st inps, 1 ≤ s.backoff ∧ s.backoff ≤ DP_LIMIT := by
  induction inps with
  | nil =>
    intro st h1 h2 s hs
    rw [schedStates] at hs
    simp at hs
    subst hs
    exact ⟨h1, h2⟩
  | cons i is ih =>
    intro st h1 h2 s hs
    rw [schedStates] at hs
    rcases List.mem_cons.mp hs with rfl | hs2
    · exact ⟨h1, h2⟩
    · obtain ⟨hb1, hb2⟩ := resume_backoff_step st i h1 h2
      exact ih (resume st i).state hb1 hb2 s hs2

/-- Consecutive sweep times are more than CMD_MAX_INTERVAL_MS apart, and
every sweep time exceeds the initial last_cmd_ts by more than that. -/
theorem sweepTimes_spaced (inps : List ResumeInput) : ∀ (st : SchedState),
    List.Chain' (fun a b => a + CMD_MAX_INTERVAL_MS < b) (sweepTimes st inps) ∧
    ∀ t ∈ sweepTimes st inps, st.last_cmd_ts + CMD_MAX_INTERVAL_MS < t := by
  induction inps with
  | nil =>
    intro st
    rw [sweepTimes]
    exact ⟨List.chain'_nil, by simp⟩
  | cons i is ih =>
    intro st
    rw [sweepTimes]
    by_cases hs : (resume st i).sweep = true
    · rw [if_pos hs]
      obtain ⟨hlt, hlast⟩ := resume_sweep_step st i hs
      obtain ⟨hchain, hall⟩ := ih (resume st i).state
      rw [hlast] at hall
      constructor
      · exact List.chain'_cons'.mpr
          ⟨fun y hy => hall y (List.mem_of_mem_head? hy), hchain⟩
      · intro t ht
        rcases List.mem_cons.mp ht with rfl | ht2
        · exact hlt
        · have := hall t ht2; omega
    · rw [if_neg hs]
      have hsf : (resume st i).sweep = false := by
        revert hs; cases (resume st i).sweep <;> simp
      have hlast := resume_no_sweep_step st i hsf
      obtain ⟨hchain, hall⟩ := ih (resume st i).state
      rw [hlast] at hall
      exact ⟨hchain, hall⟩

/-- Claim C7: across every schedule of work and no-work outcomes the
backoff counter stays within 1 and DP_LIMIT (doubling saturates at 2^17,
halving floors at 1), and the incoming-connection sweep fires no more often
than once per CMD_MAX_INTERVAL_MS (consecutive sweep clock stamps are more
than 1000 ms apart). -/
theorem backoff_bounds :
    (∀ (st : SchedState) (inps : List ResumeInput),
        1 ≤ st.backoff → st.backoff ≤ DP_LIMIT →
        ∀ s ∈ schedStates st inps, 1 ≤ s.backoff ∧ s.backoff ≤ DP_LIMIT) ∧
    (∀ (st : SchedState) (inps : List ResumeInput),
        List.Chain' (fun a b => a + CMD_MAX_INTERVAL_MS < b) (sweepTimes st inps) ∧
        ∀ t ∈ sweepTimes st inps, st.last_cmd_ts + CMD_MAX_INTERVAL_MS < t) :=
  ⟨fun st inps => schedStates_bounds inps st, fun st inps => sweepTimes_spaced inps st⟩

/-- Witness for C7 on a concrete two-step schedule from backoff 1. -/
theorem backoff_bounds_witness :
    1 ≤ (1 : Nat) ∧ (1 : Nat) ≤ DP_LIMIT ∧
    (∀ s ∈ schedStates ⟨0, 1, 0⟩
        [⟨Status.Progress 1, Status.Progress 0, Status.Progress 0, 1500⟩,
         ⟨Status.Progress 0, Status.Progress 0, Status.Progress 0, 3000⟩],
        1 ≤ s.backoff ∧ s.backoff ≤ DP_LIMIT) ∧
    List.Chain' (fun a b => a + CMD_MAX_INTERVAL_MS < b)
      (sweepTimes ⟨0, 1, 0⟩
        [⟨Status.Progress 1, Status.Progress 0, Status.Progress 0, 1500⟩,
         ⟨Status.Progress 0, Status.Progress 0, Status.Progress 0, 3000⟩]) :=
  ⟨by decide, by decide,
   backoff_bounds.1 ⟨0, 1, 0⟩
     [⟨Status.Progress 1, Status.Progress 0, Status.Progress 0, 1500⟩,
      ⟨Status.Progress 0, Status.Progress 0, Status.Progress 0, 3000⟩]
     (by decide) (by decide),
   (backoff_bounds.2 ⟨0, 1, 0⟩
     [⟨Status.Progress 1, Status.Progress 0, Status.Progress 0, 1500⟩,
      ⟨Status.Progress 0, Status.Progress 0, Status.Progress 0, 3000⟩]).1⟩

/-- One enabled connection event preserves the exact credit identity, as
long as the resulting outstanding total stays within 128 (so neither the
fetch_sub nor the fetch_add wraps). -/
theorem connStep_inv (c : ConnectionContext) (e : ConnEvent) (c1 : ConnectionContext)
    (hstep : connStep c e = some c1)
    (hinv : c.credit + outSum c = 128) (hbound : outSum c1 ≤ 128) :
    c1.credit + outSum c1 = 128 := by
  have hU : (256 : Nat) < USIZE := by norm_num [USIZE]
  cases e with
  | postRequest cid s =>
    simp only [connStep, postRequestStep] at hstep
    by_cases hg : creditGate c
    · rw [if_pos hg] at hstep
      obtain rfl := Option.some.inj hstep
      have hsum : outSum (applyRequestAccounting c cid s) = outSum c + s := by
        simp [applyRequestAccounting, outSum]
      rw [hsum] at hbound ⊢
      have hcr : wsub c.credit s = c.credit - s :=
        wsub_eq_sub c.credit s (by omega) (by omega)
      have hcr2 : (applyRequestAccounting c cid s).credit = wsub c.credit s := rfl
      rw [hcr2, hcr]
      omega
    · rw [if_neg hg] at hstep
      exact absurd hstep (by simp)
  | deliverResponse cid =>
    obtain ⟨req, rest, hq, _, hc1⟩ := deliverResponseStep_some c cid c1 hstep
    have hsum : outSum c = req.sg_len + (rest.map ReqContext.sg_len).sum := by
      simp [outSum, hq]
    have hcr : wadd c.credit req.sg_len = c.credit + req.sg_len :=
      wadd_eq_add c.credit req.sg_len (by omega)
    subst hc1
    show wadd c.credit req.sg_len + (rest.map ReqContext.sg_len).sum = 128
    rw [hcr]
    omega

/-- The credit identity is an invariant of every bounded run. -/
theorem applyEvents_inv (evs : List ConnEvent) : ∀ (c0 : ConnectionContext),
    c0.credit + outSum c0 = 128 → boundedRun c0 evs = true →
    ∀ c, applyEvents c0 evs = some c → c.credit + outSum c = 128 := by
  induction evs with
  | nil =>
    intro c0 hinv _ c hc
    rw [applyEvents] at hc
    obtain rfl := Option.some.inj hc
    exact hinv
  | cons e es ih =>
    intro c0 hinv hb c hc
    rw [applyEvents] at hc
    rw [boundedRun] at hb
    cases hstep : connStep c0 e with
    | none => rw [hstep] at hc; exact absurd hc (by simp)
    | some c1 =>
      rw [hstep] at hc hb
      dsimp only at hc hb
      rw [Bool.and_eq_true] at hb
      obtain ⟨hbound, hrest⟩ := hb
      exact ih c1 (connStep_inv c0 e c1 hstep hinv (of_decide_eq_true hbound)) hrest c hc

/-- Claim C1 (amended): starting from registration with credit 128, along
any sequence of request posts and response deliveries in which the
outstanding sg_len total never exceeds the initial credit 128, every
quiescent state satisfies credit plus the outstanding sg_len total equals
128.  (Without that bound the usize fetch_sub wraps and the identity fails;
see the counterexample.) -/
theorem credit_conservation (evs : List ConnEvent) (c : ConnectionContext)
    (hb : boundedRun initConn evs = true)
    (h : applyEvents initConn evs = some c) :
    c.credit + outSum c = 128 :=
  applyEvents_inv evs initConn (by rfl) hb c h

/-- Witness for C1: post a request of sg_len 2 as call 7, then deliver its
response; the connection returns to credit 128 with an empty FIFO. -/
theorem credit_conservation_witness :
    boundedRun initConn [ConnEvent.postRequest 7 2, ConnEvent.deliverResponse 7] = true ∧
    initConn.credit + outSum initConn = 128 :=
  ⟨by decide,
   credit_conservation [ConnEvent.postRequest 7 2, ConnEvent.deliverResponse 7] initConn
     (by decide) (by decide)⟩

/-- Counterexample to C1 as stated: a single request post of sg_len 200
passes the credit gate (128 is above the low-water mark) but wraps the
usize credit below zero, and the quiescent identity credit plus outstanding
equals 128 fails. -/
theorem credit_conservation_cex :
    applyEvents initConn [ConnEvent.postRequest 0 200] =
      some ⟨1, 18446744073709551544, [⟨0, 200⟩], []⟩ ∧
    18446744073709551544 + outSum (⟨1, 18446744073709551544, [⟨0, 200⟩], []⟩ : ConnectionContext)
      ≠ 128 := by
  constructor
  · decide
  · decide

/-- Updating key k leaves every other key's lookup unchanged. -/
theorem lookupTable_updateTable_ne {α : Type} (t : List (Nat × α)) (k j : Nat) (v : α)
    (hne : j ≠ k) : lookupTable (updateTable t k v) j = lookupTable t j := by
  induction t with
  | nil => rfl
  | cons p rest ih =>
    rw [updateTable]
    by_cases hp : p.1 = k
    · rw [if_pos hp, lookupTable, lookupTable]
      rw [if_neg (fun hkj => hne hkj.symm),
          if_neg (fun hpj => hne (hp.symm.trans hpj).symm)]
      exact ih
    · rw [if_neg hp, lookupTable, lookupTable]
      by_cases hj : p.1 = j
      · rw [if_pos hj, if_pos hj]
      · rw [if_neg hj, if_neg hj]
        exact ih

/-- Updating a present key makes its lookup return the new value. -/
theorem lookupTable_updateTable_self {α : Type} (t : List (Nat × α)) (k : Nat) (v w : α)
    (h : lookupTable t k = some w) : lookupTable (updateTable t k v) k = some v := by
  induction t with
  | nil => exact Option.noConfusion h
  | cons p rest ih =>
    rw [updateTable]
    by_cases hp : p.1 = k
    · rw [if_pos hp, lookupTable]
      rw [if_pos rfl]
    · rw [if_neg hp, lookupTable, if_neg hp]
      rw [lookupTable, if_neg hp] at h
      exact ih h

/-- Setting app_vaddr on the MR stored under h preserves the backend
address and length seen at every key. -/
theorem lookupTable_update_app_vaddr (tbl : List (Nat × MemReg)) (h : Nat) (mr : MemReg)
    (va : Nat) (hlk : lookupTable tbl h = some mr) :
    ∀ j m1, lookupTable (updateTable tbl h (mr.set_app_vaddr va)) j = some m1 →
      ∃ m0, lookupTable tbl j = some m0 ∧ m0.addr = m1.addr ∧ m0.len = m1.len := by
  intro j m1 hj
  by_cases hjh : j = h
  · subst hjh
    rw [lookupTable_updateTable_self tbl j (mr.set_app_vaddr va) mr hlk] at hj
    obtain rfl := Option.some.inj hj
    exact ⟨mr, hlk, rfl, rfl⟩
  · rw [lookupTable_updateTable_ne tbl h j _ hjh] at hj
    exact ⟨m1, hj, rfl, rfl⟩

/-- Updating a present key preserves which keys are present. -/
theorem lookupTable_update_isSome {α : Type} (tbl : List (Nat × α)) (k : Nat) (v : α)
    (hk : (lookupTable tbl k).isSome = true) :
    ∀ j, (lookupTable (updateTable tbl k v) j).isSome = (lookupTable tbl j).isSome := by
  intro j
  by_cases hjk : j = k
  · subst hjk
    obtain ⟨w, hw⟩ := Option.isSome_iff_exists.mp hk
    rw [lookupTable_updateTable_self tbl j v w hw, hw]
    rfl
  · rw [lookupTable_updateTable_ne tbl k j v hjk]

/-- The NewMappedAddrs loop on a table that contains every requested
handle: it succeeds, returns one triple (backend addr, app_vaddr, len) per
pair in input order, records the last app_vaddr given for each handle, and
leaves the entries of unmentioned handles untouched. -/
theorem newMappedAddrsLoop_ok (pairs : List (Nat × Nat)) : ∀ (tbl : List (Nat × MemReg)),
    (∀ p ∈ pairs, (lookupTable tbl p.1).isSome = true) →
    ∃ ret tbl2, newMappedAddrsLoop tbl pairs = Except.ok (ret, tbl2) ∧
      ret.length = pairs.length ∧
      (∀ i p, pairs.get? i = some p → ∃ mr, lookupTable tbl p.1 = some mr ∧
          ret.get? i = some (mr.addr, p.2, mr.len)) ∧
      (∀ h v, lastVal pairs h = some v → ∃ mr2, lookupTable tbl2 h = some mr2 ∧
          mr2.app_vaddr = some v) ∧
      (∀ k, lastVal pairs k = none → lookupTable tbl2 k = lookupTable tbl k) := by
  induction pairs with
  | nil =>
    intro tbl _
    refine ⟨[], tbl, ?_, rfl, ?_, ?_, ?_⟩
    · rw [newMappedAddrsLoop]
    · intro i p hp; simp at hp
    · intro h v hv; rw [lastVal] at hv; exact absurd hv (by simp)
    · intro k _; rfl
  | cons pr rest ih =>
    intro tbl hall
    obtain ⟨h, va⟩ := pr
    have hh : (lookupTable tbl h).isSome = true := hall (h, va) (List.mem_cons_self _ _)
    obtain ⟨mr, hmr⟩ := Option.isSome_iff_exists.mp hh
    have hall1 : ∀ p ∈ rest,
        (lookupTable (updateTable tbl h (mr.set_app_vaddr va)) p.1).isSome = true := by
      intro p hp
      rw [lookupTable_update_isSome tbl h (mr.set_app_vaddr va) hh p.1]
      exact hall p (List.mem_cons_of_mem _ hp)
    obtain ⟨ret1, tbl2, hloop, hlen, htrip, hlast, hkeep⟩ :=
      ih (updateTable tbl h (mr.set_app_vaddr va)) hall1
    refine ⟨(mr.addr, va, mr.len) :: ret1, tbl2, ?_, by simp [hlen], ?_, ?_, ?_⟩
    · rw [newMappedAddrsLoop, hmr]
      dsimp only
      rw [hloop]
    · intro i p hp
      cases i with
      | zero =>
        obtain rfl := Option.some.inj hp
        exact ⟨mr, hmr, rfl⟩
      | succ j =>
        have hp2 : rest.get? j = some p := hp
        obtain ⟨mr1, hmr1, hret⟩ := htrip j p hp2
        obtain ⟨m0, hm0, haddr, hlen0⟩ :=
          lookupTable_update_app_vaddr tbl h mr va hmr p.1 mr1 hmr1
        refine ⟨m0, hm0, ?_⟩
        rw [haddr, hlen0]
        exact hret
    · intro h2 v hv
      rw [lastVal] at hv
      cases hlv : lastVal rest h2 with
      | some v1 =>
        rw [hlv] at hv
        dsimp only at hv
        obtain rfl := Option.some.inj hv
        exact hlast h2 v1 hlv
      | none =>
        rw [hlv] at hv
        dsimp only at hv
        by_cases hhh : h = h2
        · rw [if_pos hhh] at hv
          obtain rfl := Option.some.inj hv
          subst hhh
          rw [hkeep h hlv]
          rw [lookupTable_updateTable_self tbl h (mr.set_app_vaddr va) mr hmr]
          exact ⟨mr.set_app_vaddr va, rfl, rfl⟩
        · rw [if_neg hhh] at hv
          exact absurd hv (by simp)
    · intro k hk
      rw [lastVal] at hk
      cases hlv : lastVal rest k with
      | some v1 => rw [hlv] at hk; exact absurd hk (by simp)
      | none =>
        rw [hlv] at hk
        dsimp only at hk
        by_cases hhh : h = k
        · rw [if_pos hhh] at hk; exact absurd hk (by simp)
        · rw [if_neg hhh] at hk
          rw [hkeep k hlv,
              lookupTable_updateTable_ne tbl h k _ (fun hkh => hhh hkh.symm)]

/-- Claim C9 (amended): for every input list of pairs in which each handle
names an MR registered in the recv_mr_table (the table the handler actually
consults), the command succeeds with one triple (backend addr, app_vaddr,
len) per pair in input order, the affected MR's app_vaddr is set to the
(last) given value, and the AllocShm mr_table is untouched.  Handles only
registered via AllocShm's insert_mr into mr_table are not found: see the
counterexample. -/
theorem new_mapped_addrs_ok (res : ResourceTables) (pairs : List (Nat × Nat))
    (hall : ∀ p ∈ pairs, (lookupTable res.recv_mr_table p.1).isSome = true) :
    ∃ ret res2, processNewMappedAddrs res pairs = Except.ok (ret, res2) ∧
      ret.length = pairs.length ∧
      (∀ i p, pairs.get? i = some p →
          ∃ mr, lookupTable res.recv_mr_table p.1 = some mr ∧
            ret.get? i = some (mr.addr, p.2, mr.len)) ∧
      (∀ h v, lastVal pairs h = some v →
          ∃ mr2, lookupTable res2.recv_mr_table h = some mr2 ∧
            mr2.app_vaddr = some v) ∧
      res2.mr_table = res.mr_table := by
  obtain ⟨ret, tbl2, hloop, hlen, htrip, hlast, _⟩ :=
    newMappedAddrsLoop_ok pairs res.recv_mr_table hall
  refine ⟨ret, { res with recv_mr_table := tbl2 }, ?_, hlen, htrip, hlast, rfl⟩
  unfold processNewMappedAddrs
  rw [hloop]

/-- Witness for C9 on one recv MR under handle 22 mapped to the app address
0x7f0000000000. -/
theorem new_mapped_addrs_ok_witness :
    (∀ p ∈ ([(22, 139637976727552)] : List (Nat × Nat)),
        (lookupTable (⟨[], [(22, ⟨4096, 8192, none⟩)]⟩ :
          ResourceTables).recv_mr_table p.1).isSome = true) ∧
    (∃ ret res2,
        processNewMappedAddrs ⟨[], [(22, ⟨4096, 8192, none⟩)]⟩ [(22, 139637976727552)] =
          Except.ok (ret, res2) ∧
        ret.length = ([(22, 139637976727552)] : List (Nat × Nat)).length ∧
        (∀ i p, ([(22, 139637976727552)] : List (Nat × Nat)).get? i = some p →
            ∃ mr, lookupTable (⟨[], [(22, ⟨4096, 8192, none⟩)]⟩ :
                ResourceTables).recv_mr_table p.1 = some mr ∧
              ret.get? i = some (mr.addr, p.2, mr.len)) ∧
        (∀ h v, lastVal [(22, 139637976727552)] h = some v →
            ∃ mr2, lookupTable res2.recv_mr_table h = some mr2 ∧
              mr2.app_vaddr = some v) ∧
        res2.mr_table = (⟨[], [(22, ⟨4096, 8192, none⟩)]⟩ : ResourceTables).mr_table) :=
  ⟨by decide,
   new_mapped_addrs_ok ⟨[], [(22, ⟨4096, 8192, none⟩)]⟩ [(22, 139637976727552)] (by decide)⟩

/-- Counterexample to C9 as stated: handle 0x10 is a registered MR — it was
inserted by AllocShm through insert_mr into mr_table — yet NewMappedAddrs
fails on it with ResourceNotFound, because the handler looks only in
recv_mr_table. -/
theorem new_mapped_addrs_cex :
    lookupTable (insert_mr ⟨[], []⟩ 16 ⟨4096, 8192, none⟩).mr_table 16 =
      some ⟨4096, 8192, none⟩ ∧
    processNewMappedAddrs (insert_mr ⟨[], []⟩ 16 ⟨4096, 8192, none⟩)
      [(16, 139637976727552)] = Except.error () :=
  ⟨rfl, rfl⟩

end Phoenix
